import Mathlib

/-!
Verification development for the `uip` overlay-networking daemon core:
the binary frame codec (`src/transport.rs`) and the shared connection /
routing state (`src/state.rs`), shallowly embedded in Lean 4.

Bytes are modelled as `Nat` (each emitted byte is `< 256` by construction);
the mutable `BytesMut` buffers become explicit `List Nat` values threaded
through the functions, and the `Result<Option<Frame>, Error>` of the
decoder becomes `Except String (Option Frame × List Nat)` where the second
component is the buffer contents after the call.
-/

namespace Uip

/-- A wire frame, mirroring `enum Frame` in `src/transport.rs`:
`Ping`, `Pong`, or `Data(u16, BytesMut)`.  The channel id is a `Nat`
standing for a Rust `u16` (theorems carry `< 65536` bounds where needed),
the payload a list of bytes. -/
inductive Frame where
  | Ping : Frame
  | Pong : Frame
  | Data (channel : Nat) (payload : List Nat) : Frame
deriving DecidableEq, Repr

deriving instance DecidableEq for Except

/-- `BufMut::put_u8`: append one byte to the output buffer.  The argument
is a Rust `u8`, so the written byte is its value mod 256. -/
def put_u8 (dst : List Nat) (b : Nat) : List Nat :=
  dst ++ [b % 256]

/-- `BufMut::put_u16::<BigEndian>`: append a 16-bit value big-endian.
The argument is a Rust `u16`; reducing mod 2^16 first makes the model
total on `Nat` while agreeing with the source on all in-range values. -/
def put_u16_be (dst : List Nat) (n : Nat) : List Nat :=
  dst ++ [n % 65536 / 256, n % 256]

/-- `Codec::encode` from `src/transport.rs` lines 25-37: tag byte
(1 = Ping, 2 = Pong, 3 = Data); for `Data(app_id, data)` the tag is
followed by the big-endian channel id, the big-endian value of
`data.len() as u16` (a silent mod-2^16 cast), then all payload bytes. -/
def Codec.encode (item : Frame) (dst : List Nat) : List Nat :=
  match item with
  | .Ping => put_u8 dst 1
  | .Pong => put_u8 dst 2
  | .Data app_id data =>
      put_u16_be (put_u16_be (put_u8 dst 3) app_id) data.length ++ data

/-- `encode` run on an empty output buffer: the byte string of one frame. -/
def encodeBytes (item : Frame) : List Nat :=
  Codec.encode item []

/-- `BigEndian::read_u16` of the two bytes at positions `i`, `i+1`. -/
def read_u16_be (src : List Nat) (i : Nat) : Nat :=
  src.getD i 0 * 256 + src.getD (i + 1) 0

/-- `Codec::decode` from `src/transport.rs` lines 44-65, byte for byte —
including two slips of the source that this development keeps faithfully:
for tags 1 and 2 the function returns the frame WITHOUT consuming the tag
byte, and for tag 3 it calls `src.split_off(length)` (which returns the
suffix AFTER the payload and leaves the payload in the buffer) where
`split_to(length)` was evidently meant.  The result pairs the returned
`Option<Frame>` with the buffer contents after the call. -/
def Codec.decode (src : List Nat) : Except String (Option Frame × List Nat) :=
  match src.head? with
  | none => .ok (none, src)
  | some typ =>
    if typ = 1 then .ok (some .Ping, src)
    else if typ = 2 then .ok (some .Pong, src)
    else if typ = 3 then
      if src.length < 5 then .ok (none, src)
      else
        let app_id := read_u16_be src 1
        let length := read_u16_be src 3
        if src.length < 5 + length then .ok (none, src)
        else
          let rest := src.drop 5
          .ok (some (.Data app_id (rest.drop length)), rest.take length)
    else .error "invalid message type"

/-- The declared big-endian 16-bit length field of an encoded Data frame:
bytes 3 and 4 of the encoding. -/
def declaredLength (bytes : List Nat) : Nat :=
  read_u16_be bytes 3

/-- External `std::net::SocketAddr`, kept opaque. -/
abbrev SocketAddr := String

/-- External `rustls::Certificate`, kept opaque. -/
abbrev Certificate := String

/-- A peer-directory record.  Modelled from the spec: the peer information
base is an external collaborator; the core reads only an ordered address
list and a certificate (`peer.addresses`, `peer.user_certificate` in
`src/state.rs:101-111`). -/
structure Peer where
  addresses : List SocketAddr
  user_certificate : Certificate
deriving DecidableEq

/-- A `Transport` handle (`src/transport.rs:69-72`): identified here by
the id of its outbound frame sink (the mpsc sender it clones). -/
structure Transport where
  sinkId : Nat
deriving DecidableEq

/-- The lazy future returned by `Transport::send_frame`
(`src/transport.rs:98-101`): `self.sink.clone().send(Frame::Data(..))`,
modelled as the target sink together with the frame it would enqueue. -/
structure SendFuture where
  target : Nat
  item : Frame
deriving DecidableEq

/-- `Transport::send_frame` (`src/transport.rs:98-101`): builds the
`Data` frame for the given channel and payload, aimed at this
transport's sink. -/
def Transport.send_frame (t : Transport) (channel_id : Nat) (data : List Nat) : SendFuture :=
  ⟨t.sinkId, .Data channel_id data⟩

/-- `struct LocalAddress` from `src/state.rs:21-25`. -/
structure LocalAddress where
  interface : String
  internal_address : SocketAddr
  external_address : Option SocketAddr
deriving DecidableEq

/-- Address kind of the external `interfaces` crate; the core compares
against `Kind::Ipv4` and `Kind::Ipv6` only. -/
inductive Kind where
  | Ipv4 : Kind
  | Ipv6 : Kind
  | Link : Kind
  | Packet : Kind
deriving DecidableEq

/-- One address of a network interface (`address.addr`, `address.kind`). -/
structure IfAddress where
  addr : Option SocketAddr
  kind : Kind
deriving DecidableEq

/-- A network interface as the core reads it: name, loopback and up
flags, and its address list. -/
structure Interface where
  name : String
  loopback : Bool
  up : Bool
  addresses : List IfAddress
deriving DecidableEq

/-- Association-list lookup, modelling `HashMap::get`. -/
def alistLookup {α β : Type} [DecidableEq α] : List (α × β) → α → Option β
  | [], _ => none
  | (k, v) :: rest, key => if key = k then some v else alistLookup rest key

/-- Association-list insert with overwrite, modelling `HashMap::insert`:
replaces the entry for an existing key, otherwise appends a new entry. -/
def alistInsert {α β : Type} [DecidableEq α] : List (α × β) → α → β → List (α × β)
  | [], key, v => [(key, v)]
  | (k, w) :: rest, key, v =>
      if key = k then (key, v) :: rest else (k, w) :: alistInsert rest key v

/-- `struct InnerState` from `src/state.rs:37-45` (the runtime `Handle`
is not modelled).  `connections` is the ConnectionTable
(peer id → transport list), `sockets` the RouteTable
((peer id, channel id) → the bound mpsc queue, modelled by its buffered
payloads; a fresh registration starts empty). -/
structure InnerState where
  id : String
  pib : List (String × Peer)
  connections : List (String × List Transport)
  relays : List String
  addresses : List LocalAddress
  sockets : List ((String × Nat) × List (List Nat))
deriving DecidableEq

/-- `State::from_configuration` (`src/state.rs:53-63`): empty connection
table, empty address cache, empty route table. -/
def State.from_configuration (id : String) (pib : List (String × Peer))
    (relays : List String) : InnerState :=
  ⟨id, pib, [], relays, [], []⟩

/-- `PeerInformationBase::get_peer`.  Modelled from the spec: the peer
directory is an external collaborator exposing
`get_peer(id) -> Option<PeerRecord>`; modelled as association-list
lookup. -/
def get_peer (pib : List (String × Peer)) (id : String) : Option Peer :=
  alistLookup pib id

/-- `State::lookup_peer` (`src/state.rs:101-111`): fetches the peer
record and, when its address list is non-empty, returns the FIRST
address together with the record's certificate; otherwise `None`. -/
def State.lookup_peer (s : InnerState) (id : String) : Option (SocketAddr × Certificate) :=
  (get_peer s.pib id).bind fun peer =>
    if !peer.addresses.isEmpty then
      some (peer.addresses.getD 0 "", peer.user_certificate)
    else
      none

/-- `State::add_connection` (`src/state.rs:151-155`):
`entry(id).or_insert_with(Vec::new).push(conn)` — append the transport
to the peer's list, creating a singleton list for a new peer. -/
def State.add_connection (s : InnerState) (id : String) (conn : Transport) : InnerState :=
  { s with connections :=
      match alistLookup s.connections id with
      | some conns => alistInsert s.connections id (conns ++ [conn])
      | none => alistInsert s.connections id [conn] }

/-- `State::send_frame` (`src/state.rs:176-182`): under a read lock,
look up the peer's transport list; if a first transport exists, call its
`send_frame` (the source DISCARDS the returned future; it is surfaced
here as the second component).  No branch writes the state. -/
def State.send_frame (s : InnerState) (host_id : String) (channel_id : Nat)
    (data : List Nat) : InnerState × Option SendFuture :=
  match alistLookup s.connections host_id with
  | some connections =>
      match connections.head? with
      | some connection => (s, some (connection.send_frame channel_id data))
      | none => (s, none)
  | none => (s, none)

/-- `State::deliver_frame` (`src/state.rs:184-188`): look up the route
table at `(host_id, channel_id)`; if a queue is bound there, spawn a
task enqueuing the payload on it (modelled by appending to the queue);
otherwise do nothing. -/
def State.deliver_frame (s : InnerState) (host_id : String) (channel_id : Nat)
    (data : List Nat) : InnerState :=
  match alistLookup s.sockets (host_id, channel_id) with
  | some q => { s with sockets := alistInsert s.sockets (host_id, channel_id) (q ++ [data]) }
  | none => s

/-- The registration step of `State::open_ctl_socket`
(`src/state.rs:133-146`): for a decoded control message
`(path, host_id, channel_id)`, create a fresh bounded channel and
`sockets.insert((host_id, channel_id), sender)` — a fresh empty queue,
overwriting any prior entry for the key. -/
def State.register_route (s : InnerState) (host_id : String) (channel_id : Nat) : InnerState :=
  { s with sockets := alistInsert s.sockets (host_id, channel_id) [] }

/-- Per-interface inner loop of `State::discover_addresses`
(`src/state.rs:88-97`): push a `LocalAddress` for every address that is
present and of kind Ipv4 or Ipv6. -/
def interfaceLocalAddresses (i : Interface) : List LocalAddress :=
  i.addresses.foldl (fun acc address =>
    match address.addr with
    | none => acc
    | some addr =>
        if address.kind = Kind.Ipv4 ∨ address.kind = Kind.Ipv6 then
          acc ++ [⟨i.name, addr, none⟩]
        else acc) []

/-- `State::discover_addresses` (`src/state.rs:77-99`): if interface
enumeration fails, return with the state untouched; otherwise clear the
address cache and refill it from the up, non-loopback interfaces.  The
enumeration result of the external `Interface::get_all()` is passed in
as `scan`. -/
def State.discover_addresses (s : InnerState)
    (scan : Except Unit (List Interface)) : InnerState :=
  match scan with
  | .error _ => s
  | .ok interfaces =>
      { s with addresses :=
          interfaces.foldl (fun acc i =>
            if i.loopback || !i.up then acc
            else acc ++ interfaceLocalAddresses i) [] }

/-- The spec's description of the refreshed address cache, following its
words: exactly the IPv4/IPv6 addresses of interfaces that are up and not
loopback (spec §4.3, `discover_addresses`). -/
def specLocalAddresses (interfaces : List Interface) : List LocalAddress :=
  (interfaces.filter fun i => !i.loopback && i.up).flatMap fun i =>
    i.addresses.filterMap fun address =>
      match address.addr with
      | some addr =>
          if address.kind = Kind.Ipv4 ∨ address.kind = Kind.Ipv6 then
            some ⟨i.name, addr, none⟩
          else none
      | none => none

/-- The state-mutating operations of the core that could touch the
RouteTable (`sockets`), one constructor per `State` method modelled
above. -/
inductive Op where
  | addConnection (id : String) (conn : Transport) : Op
  | sendFrame (host_id : String) (channel_id : Nat) (data : List Nat) : Op
  | deliverFrame (host_id : String) (channel_id : Nat) (data : List Nat) : Op
  | registerRoute (host_id : String) (channel_id : Nat) : Op
  | discoverAddresses (scan : Except Unit (List Interface)) : Op
  | lookupPeer (id : String) : Op

/-- Apply one core operation to the state (`lookup_peer` and the read
side of `send_frame` leave it unchanged). -/
def applyOp (s : InnerState) : Op → InnerState
  | .addConnection id conn => State.add_connection s id conn
  | .sendFrame h c d => (State.send_frame s h c d).1
  | .deliverFrame h c d => State.deliver_frame s h c d
  | .registerRoute h c => State.register_route s h c
  | .discoverAddresses scan => State.discover_addresses s scan
  | .lookupPeer _ => s

/-- The RouteTable's key list. -/
def routeKeys (s : InnerState) : List (String × Nat) :=
  s.sockets.map Prod.fst

end Uip

namespace Uip

/-- C5: encode maps Ping to the single byte 1, Pong to the single byte 2,
and `Data(ch, payload)` with payload length ≤ 65535 to the byte 3, the
channel id big-endian on 16 bits, the payload length big-endian on
16 bits, then the payload; in particular `Data(1, "hello")` encodes to
`03 00 01 00 05 68 65 6c 6c 6f`. -/
theorem encode_spec (ch : Nat) (payload : List Nat)
    (hch : ch < 65536) (hlen : payload.length ≤ 65535) :
    encodeBytes .Ping = [1] ∧
    encodeBytes .Pong = [2] ∧
    encodeBytes (.Data ch payload) =
      3 :: ch / 256 :: ch % 256 ::
        payload.length / 256 :: payload.length % 256 :: payload ∧
    encodeBytes (.Data 1 [0x68, 0x65, 0x6c, 0x6c, 0x6f]) =
      [0x03, 0x00, 0x01, 0x00, 0x05, 0x68, 0x65, 0x6c, 0x6c, 0x6f] := by
  refine ⟨rfl, rfl, ?_, by decide⟩
  have hch' : ch % 65536 = ch := Nat.mod_eq_of_lt hch
  have hlen' : payload.length % 65536 = payload.length :=
    Nat.mod_eq_of_lt (Nat.lt_of_le_of_lt hlen (by decide))
  have hch2 : ch % 256 = ch % 65536 % 256 := by
    rw [Nat.mod_mod_of_dvd ch (by decide)]
  have hlen2 : payload.length % 256 = payload.length % 65536 % 256 := by
    rw [Nat.mod_mod_of_dvd payload.length (by decide)]
  simp only [encodeBytes, Codec.encode, put_u8, put_u16_be, hch', hlen',
    hch2, hlen2, List.nil_append, List.cons_append, List.append_assoc]

/-- Witness for C5 at `ch = 1`, `payload = [0x68]`. -/
theorem encode_spec_witness :
    encodeBytes (.Data 1 [0x68]) = [3, 0, 1, 0, 1, 0x68] := by
  have h := encode_spec 1 [0x68] (by decide) (by decide)
  simpa using h.2.2.1

/-- C6: decoding any non-empty buffer whose first byte is a tag other than
1, 2 or 3 yields a hard error, not a need-more-data result. -/
theorem decode_unknown_tag (b : Nat) (rest : List Nat)
    (h1 : b ≠ 1) (h2 : b ≠ 2) (h3 : b ≠ 3) :
    Codec.decode (b :: rest) = .error "invalid message type" := by
  simp [Codec.decode, h1, h2, h3]

/-- Witness for C6 at the buffers `[0]` and `[4, 9]`. -/
theorem decode_unknown_tag_witness :
    Codec.decode [0] = .error "invalid message type" ∧
    Codec.decode [4, 9] = .error "invalid message type" :=
  ⟨decode_unknown_tag 0 [] (by decide) (by decide) (by decide),
   decode_unknown_tag 4 [9] (by decide) (by decide) (by decide)⟩

/-- C1 (code bug evidence): the round trip fails on the code.  Decoding the
encoding of `Data(1, [0x68])` returns `Data(1, [])` — the `split_off` call
at `src/transport.rs:64` hands the decoder the bytes AFTER the payload and
leaves the payload itself in the buffer — instead of `Data(1, [0x68])`. -/
theorem decode_encode_data_bug :
    Codec.decode (encodeBytes (.Data 1 [0x68])) =
      .ok (some (.Data 1 []), [0x68]) ∧
    Codec.decode (encodeBytes (.Data 1 [0x68])) ≠
      .ok (some (.Data 1 [0x68]), []) := by
  constructor
  · decide
  · decide

/-- C2 (code bug evidence): decoding the complete encoding of `Ping`
yields the frame but consumes none of its bytes — the buffer still holds
the tag byte, so a buffer `encode(Ping) ++ encode(Pong)` yields `Ping`
forever and never reaches `Pong`. -/
theorem decode_ping_consumes_nothing :
    Codec.decode (encodeBytes .Ping) = .ok (some .Ping, [1]) ∧
    Codec.decode (encodeBytes .Ping ++ encodeBytes .Pong) =
      .ok (some .Ping, [1, 2]) := by
  constructor
  · decide
  · decide

/-- The byte string of an encoded Data frame, as an explicit list. -/
lemma encodeBytes_data (ch : Nat) (p : List Nat) :
    encodeBytes (.Data ch p) =
      [3, ch % 65536 / 256, ch % 256, p.length % 65536 / 256,
        p.length % 256] ++ p := by
  simp [encodeBytes, Codec.encode, put_u8, put_u16_be]

/-- C4 (code bug evidence): on a 65536-byte payload the encoder neither
rejects nor truncates — it writes a declared length field of 0 (the
`data.len() as u16` cast at `src/transport.rs:32` wraps mod 2^16) and then
writes all 65536 payload bytes, so the declared length disagrees with the
payload bytes actually written. -/
theorem encode_length_field_wraps :
    declaredLength (encodeBytes (.Data 0 (List.replicate 65536 0))) = 0 ∧
    (encodeBytes (.Data 0 (List.replicate 65536 0))).length = 5 + 65536 := by
  have h : encodeBytes (.Data 0 (List.replicate 65536 0)) =
      [3, 0, 0, 0, 0] ++ List.replicate 65536 0 := by
    rw [encodeBytes_data]
    norm_num
  rw [h]
  constructor
  · rfl
  · rw [List.length_append, List.length_replicate]
    norm_num

/-- Inserting at a key makes it look up to the new value. -/
lemma alistLookup_insert_self {α β : Type} [DecidableEq α]
    (m : List (α × β)) (k : α) (v : β) :
    alistLookup (alistInsert m k v) k = some v := by
  induction m with
  | nil => simp [alistInsert, alistLookup]
  | cons p rest ih =>
    obtain ⟨a, b⟩ := p
    by_cases h : k = a
    · simp [alistInsert, alistLookup, h]
    · simp [alistInsert, alistLookup, h, ih]

/-- Inserting at a key leaves every other key's lookup unchanged. -/
lemma alistLookup_insert_ne {α β : Type} [DecidableEq α]
    (m : List (α × β)) (k k' : α) (v : β) (h : k' ≠ k) :
    alistLookup (alistInsert m k v) k' = alistLookup m k' := by
  induction m with
  | nil => simp [alistInsert, alistLookup, h]
  | cons p rest ih =>
    obtain ⟨a, b⟩ := p
    by_cases hk : k = a
    · subst hk
      simp [alistInsert, alistLookup, h]
    · by_cases hk' : k' = a
      · simp [alistInsert, alistLookup, hk, hk']
      · simp [alistInsert, alistLookup, hk, hk', ih]

/-- C3 (code bug evidence): `State::send_frame` never writes the state;
with at least one registered transport for the peer it builds the send
future `sink.clone().send(Data(channel, payload))` aimed at the FIRST
transport of the list — a future the source then DISCARDS without
spawning or polling it (`src/state.rs:179`, unlike `deliver_frame`,
which spawns its send future), so the frame is never actually enqueued;
with no transport (absent key or empty list) it is a silent non-blocking
no-op producing no send at all, as the claim states. -/
theorem send_frame_primary (s : InnerState) (host : String) (ch : Nat)
    (data : List Nat) :
    (State.send_frame s host ch data).1 = s ∧
    (∀ t ts, alistLookup s.connections host = some (t :: ts) →
      (State.send_frame s host ch data).2 = some (Transport.send_frame t ch data)) ∧
    (alistLookup s.connections host = none ∨
        alistLookup s.connections host = some [] →
      (State.send_frame s host ch data).2 = none) := by
  refine ⟨?_, ?_, ?_⟩
  · cases h : alistLookup s.connections host with
    | none => simp [State.send_frame, h]
    | some conns =>
      cases conns with
      | nil => simp [State.send_frame, h]
      | cons t ts => simp [State.send_frame, h]
  · intro t ts hl
    simp [State.send_frame, hl]
  · rintro (hl | hl) <;> simp [State.send_frame, hl]

/-- Witness for C3: one peer "A" with a single transport (sink 7); sending
to "A" targets that transport, sending to unknown "B" yields no send. -/
theorem send_frame_primary_witness :
    (State.send_frame ⟨"me", [], [("A", [⟨7⟩])], [], [], []⟩ "A" 3 [1, 2]).2 =
      some ⟨7, .Data 3 [1, 2]⟩ ∧
    (State.send_frame ⟨"me", [], [("A", [⟨7⟩])], [], [], []⟩ "B" 3 [1, 2]).2 =
      none :=
  ⟨(send_frame_primary ⟨"me", [], [("A", [⟨7⟩])], [], [], []⟩ "A" 3 [1, 2]).2.1
      ⟨7⟩ [] (by simp [alistLookup]),
   (send_frame_primary ⟨"me", [], [("A", [⟨7⟩])], [], [], []⟩ "B" 3 [1, 2]).2.2
      (Or.inl (by simp [alistLookup]))⟩

/-- C7: `State::deliver_frame` with a registered route for
`(host, channel)` appends exactly the payload to that route's queue,
leaves every other route's queue and every other state field unchanged;
with no registered route it returns the state completely unchanged. -/
theorem deliver_frame_route (s : InnerState) (host : String) (ch : Nat)
    (data : List Nat) :
    (∀ q, alistLookup s.sockets (host, ch) = some q →
      alistLookup (State.deliver_frame s host ch data).sockets (host, ch) =
        some (q ++ [data]) ∧
      (∀ k, k ≠ (host, ch) →
        alistLookup (State.deliver_frame s host ch data).sockets k =
          alistLookup s.sockets k) ∧
      (State.deliver_frame s host ch data).id = s.id ∧
      (State.deliver_frame s host ch data).pib = s.pib ∧
      (State.deliver_frame s host ch data).connections = s.connections ∧
      (State.deliver_frame s host ch data).relays = s.relays ∧
      (State.deliver_frame s host ch data).addresses = s.addresses) ∧
    (alistLookup s.sockets (host, ch) = none →
      State.deliver_frame s host ch data = s) := by
  constructor
  · intro q hq
    refine ⟨?_, ?_, ?_, ?_, ?_, ?_, ?_⟩
    · simp [State.deliver_frame, hq, alistLookup_insert_self]
    · intro k hk
      simp only [State.deliver_frame, hq]
      exact alistLookup_insert_ne _ _ _ _ hk
    all_goals simp [State.deliver_frame, hq]
  · intro hq
    simp [State.deliver_frame, hq]

/-- Witness for C7: route ("A", 3) registered with an empty queue;
delivering for (A, 3) enqueues the payload, delivering for (A, 4) is the
identity. -/
theorem deliver_frame_route_witness :
    alistLookup (State.deliver_frame
        ⟨"me", [], [], [], [], [(("A", 3), [])]⟩ "A" 3 [9, 9]).sockets ("A", 3) =
      some [[9, 9]] ∧
    State.deliver_frame ⟨"me", [], [], [], [], [(("A", 3), [])]⟩ "A" 4 [9, 9] =
      ⟨"me", [], [], [], [], [(("A", 3), [])]⟩ :=
  ⟨((deliver_frame_route ⟨"me", [], [], [], [], [(("A", 3), [])]⟩ "A" 3 [9, 9]).1
      [] (by simp [alistLookup])).1,
   (deliver_frame_route ⟨"me", [], [], [], [], [(("A", 3), [])]⟩ "A" 4 [9, 9]).2
      (by simp [alistLookup])⟩

/-- Every key of the map is still a key after an insert (inserts never
remove entries). -/
lemma mem_keys_alistInsert {α β : Type} [DecidableEq α]
    (m : List (α × β)) (k k' : α) (v : β) (h : k' ∈ m.map Prod.fst) :
    k' ∈ (alistInsert m k v).map Prod.fst := by
  induction m with
  | nil => simp at h
  | cons p rest ih =>
    obtain ⟨a, b⟩ := p
    by_cases hk : k = a
    · subst hk
      simpa [alistInsert] using h
    · simp only [List.map_cons, List.mem_cons] at h
      simp only [alistInsert, if_neg hk, List.map_cons, List.mem_cons]
      rcases h with h | h
      · exact Or.inl h
      · exact Or.inr (ih h)

/-- A key of the inserted map is a key of the original map or the
inserted key. -/
lemma keys_alistInsert_sub {α β : Type} [DecidableEq α]
    (m : List (α × β)) (k k' : α) (v : β)
    (h : k' ∈ (alistInsert m k v).map Prod.fst) :
    k' ∈ m.map Prod.fst ∨ k' = k := by
  induction m with
  | nil =>
    simp [alistInsert] at h
    exact Or.inr h
  | cons p rest ih =>
    obtain ⟨a, b⟩ := p
    by_cases hk : k = a
    · subst hk
      simp [alistInsert] at h
      rcases h with h | h
      · exact Or.inr h
      · exact Or.inl (by simp [h])
    · simp only [alistInsert, if_neg hk, List.map_cons, List.mem_cons] at h
      rcases h with h | h
      · exact Or.inl (by simp [h])
      · rcases ih h with h' | h'
        · exact Or.inl (by simp only [List.map_cons, List.mem_cons]; exact Or.inr h')
        · exact Or.inr h'

/-- Insert-with-overwrite preserves duplicate-freeness of the key list. -/
lemma nodup_keys_alistInsert {α β : Type} [DecidableEq α]
    (m : List (α × β)) (k : α) (v : β) (h : (m.map Prod.fst).Nodup) :
    ((alistInsert m k v).map Prod.fst).Nodup := by
  induction m with
  | nil => simp [alistInsert]
  | cons p rest ih =>
    obtain ⟨a, b⟩ := p
    simp only [List.map_cons, List.nodup_cons] at h
    by_cases hk : k = a
    · subst hk
      simpa [alistInsert] using h
    · simp only [alistInsert, if_neg hk, List.map_cons, List.nodup_cons]
      refine ⟨?_, ih h.2⟩
      intro hmem
      rcases keys_alistInsert_sub rest k a v hmem with h' | h'
      · exact h.1 h'
      · exact hk h'.symm

/-- `State::send_frame` holds only a read lock: its state component is
the input state in every branch. -/
lemma send_frame_fst (s : InnerState) (host : String) (ch : Nat)
    (data : List Nat) : (State.send_frame s host ch data).1 = s := by
  cases h : alistLookup s.connections host with
  | none => simp [State.send_frame, h]
  | some conns =>
    cases conns with
    | nil => simp [State.send_frame, h]
    | cons t ts => simp [State.send_frame, h]

/-- C9: the RouteTable holds at most one entry per (peer, channel) key
at every instant: the duplicate-free-keys invariant is preserved by
every core operation (so each key's entry count stays ≤ 1), no
operation removes a route key, and registering an already-present key
silently overwrites — the key then maps to the fresh empty queue. -/
theorem route_table_at_most_one (s : InnerState) (op : Op) (host : String)
    (ch : Nat) (hinv : (routeKeys s).Nodup) :
    (routeKeys (applyOp s op)).Nodup ∧
    (∀ k, @List.count _ instBEqOfDecidableEq k (routeKeys (applyOp s op)) ≤ 1) ∧
    (∀ k, k ∈ routeKeys s → k ∈ routeKeys (applyOp s op)) ∧
    alistLookup (State.register_route s host ch).sockets (host, ch) = some [] := by
  have key : (routeKeys (applyOp s op)).Nodup ∧
      ∀ k, k ∈ routeKeys s → k ∈ routeKeys (applyOp s op) := by
    cases op with
    | addConnection id conn => exact ⟨hinv, fun k hk => hk⟩
    | sendFrame h c d =>
      simp only [applyOp, send_frame_fst]
      exact ⟨hinv, fun k hk => hk⟩
    | deliverFrame h c d =>
      simp only [applyOp]
      cases hq : alistLookup s.sockets (h, c) with
      | none =>
        simp only [State.deliver_frame, hq]
        exact ⟨hinv, fun k hk => hk⟩
      | some q =>
        simp only [State.deliver_frame, hq]
        exact ⟨nodup_keys_alistInsert _ _ _ hinv,
          fun k hk => mem_keys_alistInsert _ _ _ _ hk⟩
    | registerRoute h c =>
      exact ⟨nodup_keys_alistInsert _ _ _ hinv,
        fun k hk => mem_keys_alistInsert _ _ _ _ hk⟩
    | discoverAddresses scan =>
      cases scan with
      | error e => exact ⟨hinv, fun k hk => hk⟩
      | ok l => exact ⟨hinv, fun k hk => hk⟩
    | lookupPeer id => exact ⟨hinv, fun k hk => hk⟩
  exact ⟨key.1, fun k => List.nodup_iff_count_le_one.mp key.1 k, key.2,
    alistLookup_insert_self _ _ _⟩

/-- Witness for C9: a state already holding route ("A", 3); re-registering
("A", 3) keeps the key list duplicate-free and rebinds the key to a fresh
empty queue. -/
theorem route_table_at_most_one_witness :
    (routeKeys (applyOp ⟨"me", [], [], [], [], [(("A", 3), [[7]])]⟩
        (.registerRoute "A" 3))).Nodup ∧
    alistLookup (State.register_route ⟨"me", [], [], [], [], [(("A", 3), [[7]])]⟩
        "A" 3).sockets ("A", 3) = some [] :=
  ⟨(route_table_at_most_one ⟨"me", [], [], [], [], [(("A", 3), [[7]])]⟩
      (.registerRoute "A" 3) "A" 3 (by simp [routeKeys])).1,
   (route_table_at_most_one ⟨"me", [], [], [], [], [(("A", 3), [[7]])]⟩
      (.registerRoute "A" 3) "A" 3 (by simp [routeKeys])).2.2.2⟩

/-- The inner address loop with an explicit accumulator equals a
`filterMap` over the interface's addresses. -/
lemma interfaceLocalAddresses_aux (nm : String) :
    ∀ (l : List IfAddress) (acc : List LocalAddress),
      l.foldl (fun acc address =>
        match address.addr with
        | none => acc
        | some addr =>
            if address.kind = Kind.Ipv4 ∨ address.kind = Kind.Ipv6 then
              acc ++ [⟨nm, addr, none⟩]
            else acc) acc
      = acc ++ l.filterMap (fun address =>
          match address.addr with
          | some addr =>
              if address.kind = Kind.Ipv4 ∨ address.kind = Kind.Ipv6 then
                some ⟨nm, addr, none⟩
              else none
          | none => none) := by
  intro l
  induction l with
  | nil => intro acc; simp
  | cons a rest ih =>
    intro acc
    obtain ⟨oaddr, kind⟩ := a
    cases oaddr with
    | none => simp [List.foldl_cons, List.filterMap_cons, ih]
    | some addr =>
      by_cases hk : kind = Kind.Ipv4 ∨ kind = Kind.Ipv6
      · simp [List.foldl_cons, List.filterMap_cons, hk, ih]
      · simp [List.foldl_cons, List.filterMap_cons, hk, ih]

/-- `interfaceLocalAddresses` as a `filterMap`. -/
lemma interfaceLocalAddresses_eq (i : Interface) :
    interfaceLocalAddresses i
      = i.addresses.filterMap (fun address =>
          match address.addr with
          | some addr =>
              if address.kind = Kind.Ipv4 ∨ address.kind = Kind.Ipv6 then
                some ⟨i.name, addr, none⟩
              else none
          | none => none) := by
  simpa [interfaceLocalAddresses] using
    interfaceLocalAddresses_aux i.name i.addresses []

/-- The outer interface loop with an explicit accumulator equals a
filter-then-concatenate over the interfaces. -/
lemma discover_fold_aux :
    ∀ (l : List Interface) (acc : List LocalAddress),
      l.foldl (fun acc i =>
        if i.loopback || !i.up then acc
        else acc ++ interfaceLocalAddresses i) acc
      = acc ++ (l.filter fun i => !i.loopback && i.up).flatMap
          interfaceLocalAddresses := by
  intro l
  induction l with
  | nil => intro acc; simp
  | cons i rest ih =>
    intro acc
    rw [List.foldl_cons]
    by_cases hb : (i.loopback || !i.up) = true
    · have hf : (!i.loopback && i.up) = false := by
        cases hL : i.loopback <;> cases hU : i.up <;> simp_all
      rw [if_pos hb, List.filter_cons, if_neg (by simp [hf])]
      exact ih acc
    · have hb' : (i.loopback || !i.up) = false := by
        revert hb
        cases i.loopback || !i.up <;> simp
      have hf : (!i.loopback && i.up) = true := by
        cases hL : i.loopback <;> cases hU : i.up <;> simp_all
      rw [if_neg hb, List.filter_cons, if_pos hf, List.flatMap_cons,
        ih (acc ++ interfaceLocalAddresses i), List.append_assoc]

/-- The refreshed address list of the code equals the spec's
description of it. -/
lemma discover_eq_spec (interfaces : List Interface) :
    interfaces.foldl (fun acc i =>
        if i.loopback || !i.up then acc
        else acc ++ interfaceLocalAddresses i) []
      = specLocalAddresses interfaces := by
  rw [discover_fold_aux interfaces []]
  simp only [List.nil_append]
  unfold specLocalAddresses
  generalize (interfaces.filter fun i => !i.loopback && i.up) = l
  induction l with
  | nil => simp
  | cons i rest ih => simp [List.flatMap_cons, ih, interfaceLocalAddresses_eq]

/-- C8: when interface enumeration fails, `State::discover_addresses`
leaves the whole state (in particular the cached address list)
unchanged; when it succeeds, it replaces the cached list with exactly
the IPv4/IPv6 addresses of the up, non-loopback interfaces, touching no
other field. -/
theorem discover_addresses_cache (s : InnerState)
    (scan : Except Unit (List Interface)) :
    (∀ e, scan = .error e → State.discover_addresses s scan = s) ∧
    (∀ interfaces, scan = .ok interfaces →
      (State.discover_addresses s scan).addresses = specLocalAddresses interfaces ∧
      (State.discover_addresses s scan).id = s.id ∧
      (State.discover_addresses s scan).pib = s.pib ∧
      (State.discover_addresses s scan).connections = s.connections ∧
      (State.discover_addresses s scan).relays = s.relays ∧
      (State.discover_addresses s scan).sockets = s.sockets) := by
  constructor
  · intro e he
    subst he
    rfl
  · intro interfaces hi
    subst hi
    refine ⟨?_, rfl, rfl, rfl, rfl, rfl⟩
    simpa [State.discover_addresses] using discover_eq_spec interfaces

/-- Witness for C8: enumeration failure leaves a cached entry in place;
a successful scan over a loopback interface, a down interface and an up
ethernet interface (with one IPv4 address, one link-layer address and
one address-less slot) keeps exactly the ethernet IPv4 address. -/
theorem discover_addresses_cache_witness :
    State.discover_addresses
      ⟨"me", [], [], [], [⟨"old", "1.2.3.4", none⟩], []⟩ (.error ()) =
      ⟨"me", [], [], [], [⟨"old", "1.2.3.4", none⟩], []⟩ ∧
    (State.discover_addresses
      ⟨"me", [], [], [], [⟨"old", "1.2.3.4", none⟩], []⟩
      (.ok [⟨"lo", true, true, [⟨some "127.0.0.1", .Ipv4⟩]⟩,
            ⟨"wlan0", false, false, [⟨some "10.9.9.9", .Ipv4⟩]⟩,
            ⟨"eth0", false, true,
              [⟨some "10.0.0.1", .Ipv4⟩, ⟨some "aa:bb", .Link⟩,
               ⟨none, .Ipv6⟩]⟩])).addresses =
      specLocalAddresses
        [⟨"lo", true, true, [⟨some "127.0.0.1", .Ipv4⟩]⟩,
         ⟨"wlan0", false, false, [⟨some "10.9.9.9", .Ipv4⟩]⟩,
         ⟨"eth0", false, true,
           [⟨some "10.0.0.1", .Ipv4⟩, ⟨some "aa:bb", .Link⟩,
            ⟨none, .Ipv6⟩]⟩] ∧
    specLocalAddresses
        [⟨"lo", true, true, [⟨some "127.0.0.1", .Ipv4⟩]⟩,
         ⟨"wlan0", false, false, [⟨some "10.9.9.9", .Ipv4⟩]⟩,
         ⟨"eth0", false, true,
           [⟨some "10.0.0.1", .Ipv4⟩, ⟨some "aa:bb", .Link⟩,
            ⟨none, .Ipv6⟩]⟩] = [⟨"eth0", "10.0.0.1", none⟩] :=
  ⟨(discover_addresses_cache
      ⟨"me", [], [], [], [⟨"old", "1.2.3.4", none⟩], []⟩ (.error ())).1 () rfl,
   ((discover_addresses_cache
      ⟨"me", [], [], [], [⟨"old", "1.2.3.4", none⟩], []⟩
      (.ok [⟨"lo", true, true, [⟨some "127.0.0.1", .Ipv4⟩]⟩,
            ⟨"wlan0", false, false, [⟨some "10.9.9.9", .Ipv4⟩]⟩,
            ⟨"eth0", false, true,
              [⟨some "10.0.0.1", .Ipv4⟩, ⟨some "aa:bb", .Link⟩,
               ⟨none, .Ipv6⟩]⟩])).2 _ rfl).1,
   by decide⟩

/-- C10: when the peer directory holds a record for the id,
`State::lookup_peer` returns `none` on an empty address list (no
out-of-bounds access — the index is guarded) and otherwise the first
address paired with the record's certificate. -/
theorem lookup_peer_first_address (s : InnerState) (id : String) (peer : Peer)
    (hget : get_peer s.pib id = some peer) :
    (peer.addresses = [] → State.lookup_peer s id = none) ∧
    (∀ a rest, peer.addresses = a :: rest →
      State.lookup_peer s id = some (a, peer.user_certificate)) := by
  constructor
  · intro hempty
    simp [State.lookup_peer, hget, hempty]
  · intro a rest haddr
    simp [State.lookup_peer, hget, haddr]

/-- Witness for C10: a directory with an address-less record for "X" and
a record for "Y" whose first address is "y1". -/
theorem lookup_peer_first_address_witness :
    State.lookup_peer
      ⟨"me", [("X", ⟨[], "cx"⟩), ("Y", ⟨["y1", "y2"], "cy"⟩)], [], [], [], []⟩
      "X" = none ∧
    State.lookup_peer
      ⟨"me", [("X", ⟨[], "cx"⟩), ("Y", ⟨["y1", "y2"], "cy"⟩)], [], [], [], []⟩
      "Y" = some ("y1", "cy") :=
  ⟨(lookup_peer_first_address
      ⟨"me", [("X", ⟨[], "cx"⟩), ("Y", ⟨["y1", "y2"], "cy"⟩)], [], [], [], []⟩
      "X" ⟨[], "cx"⟩ (by simp [get_peer, alistLookup])).1 rfl,
   (lookup_peer_first_address
      ⟨"me", [("X", ⟨[], "cx"⟩), ("Y", ⟨["y1", "y2"], "cy"⟩)], [], [], [], []⟩
      "Y" ⟨["y1", "y2"], "cy"⟩ (by simp [get_peer, alistLookup])).2
      "y1" ["y2"] rfl⟩

end Uip
